import Mathlib

/-!
Verification of the adaptive checkpoint loader of the Crop-track backend
(src/backend/app.py, with architecture constructors in src/backend/models.py).

The Python functions are shallowly embedded as executable Lean functions:
  - parameter tensors are records of a shape (list of dimension sizes) and an
    abstract value identifier;
  - Python dicts are association lists in insertion order (Python dicts are
    ordered; lookup returns the value of the unique key);
  - the process-wide mutable globals (loaded_models, model_paths,
    model_configs) together with the file system are an explicit AppState
    threaded through loadModel.
-/

/-- A parameter tensor: a shape together with an abstract value identifier
standing for the numeric contents (the loader only ever inspects shapes and
copies values wholesale). -/
structure Tensor where
  shape : List Nat
  val : Nat
deriving DecidableEq, Repr

/-- A normalized parameter map (PyTorch state dict): key to tensor, in
insertion order. -/
abbrev StateDict := List (String × Tensor)

/-! ### String helpers mirroring the Python string operations used. -/

/-- Substring containment, the semantics of the Python expression
needle in haystack for strings, over explicit character lists. -/
def containsSub (needle : List Char) : List Char → Bool
  | [] => needle.isEmpty
  | c :: rest => needle.isPrefixOf (c :: rest) || containsSub needle rest

/-- Lower-cased character list of a string, the Python key.lower(). -/
def lowerStr (s : String) : List Char := s.data.map Char.toLower

/-- Numeric value of a list of decimal digit characters, as Python int()
on the digits captured by the regex (48 is the code of the digit zero). -/
def natOfDigits (ds : List Char) : Nat :=
  ds.foldl (fun n c => n * 10 + (c.toNat - 48)) 0

/-- Splits off the maximal leading run of decimal digits. -/
def digitRun : List Char → List Char × List Char
  | [] => ([], [])
  | c :: cs =>
    if c.isDigit then
      let p := digitRun cs
      (c :: p.1, p.2)
    else ([], c :: cs)

/-- Scanning core of _extract_layer_index: leftmost occurrence of a dot,
followed by a non-empty digit run, followed by a dot (the Python regex
search for a dot-digits-dot pattern); returns the digits' value, else 0. -/
def extractLayerIndexAux : List Char → Nat
  | [] => 0
  | c :: cs =>
    if c = '.' then
      match digitRun cs with
      | ([], _) => extractLayerIndexAux cs
      | (ds, rest) =>
        match rest with
        | '.' :: _ => natOfDigits ds
        | _ => extractLayerIndexAux cs
    else extractLayerIndexAux cs

/-- Embedding of _extract_layer_index (src/backend/app.py lines 149-156):
extract the numeric index from a dot-digits-dot pattern in the key,
defaulting to 0 when the pattern is absent. -/
def extractLayerIndex (key : String) : Nat :=
  extractLayerIndexAux key.data

/-! ### Class-Count Inference Engine
Embedding of detect_num_classes_from_checkpoint
(src/backend/app.py lines 159-216). -/

/-- A classifier candidate record, as built at lines 175-180 of app.py. -/
structure Cand where
  key : String
  output_dim : Nat
  input_dim : Nat
  index : Nat
deriving DecidableEq, Repr

/-- The classifier naming terms probed at line 170 of app.py. -/
def classifierTerms : List (List Char) :=
  ["classifier".data, "fc".data, "head".data]

/-- Candidate collection loop of detect_num_classes_from_checkpoint
(lines 167-180): keys containing the substring weight, a two-dimensional
shape, and one of the classifier terms in the lower-cased key.  The shape
accesses use getD, guarded by the length-two test. -/
def collectCandidates (sd : StateDict) : List Cand :=
  sd.filterMap fun kv =>
    if containsSub "weight".data kv.1.data && kv.2.shape.length == 2
        && classifierTerms.any (fun t => containsSub t (lowerStr kv.1)) then
      some ⟨kv.1, kv.2.shape.getD 0 0, kv.2.shape.getD 1 0, extractLayerIndex kv.1⟩
    else none

/-- Stable descending insertion by layer index: an element is placed before
the first element whose index is less than or equal to its own, so earlier
elements stay first among equal indices. -/
def insertDesc (x : Cand) : List Cand → List Cand
  | [] => [x]
  | y :: ys => if y.index ≤ x.index then x :: y :: ys else y :: insertDesc x ys

/-- Stable sort by layer index descending, the semantics of the Python
candidate_layers.sort(key index, reverse) at line 191 (Python's sort is
stable and its reverse flag keeps equal keys in original order). -/
def sortDesc : List Cand → List Cand
  | [] => []
  | x :: xs => insertDesc x (sortDesc xs)

/-- The output-width acceptance test of line 203: closed range from 2 to 100. -/
def inRange (c : Cand) : Bool := 2 ≤ c.output_dim && c.output_dim ≤ 100

/-- Embedding of detect_num_classes_from_checkpoint (lines 159-216): collect
candidates; if none, return none; sort by index descending (stable); return
the output_dim of the first sorted candidate whose output_dim is in the
closed range 2..100; else fall back to the head of the sorted list. -/
def detect_num_classes_from_checkpoint (sd : StateDict) : Option Nat :=
  let cands := collectCandidates sd
  if cands.isEmpty then none
  else
    let sorted := sortDesc cands
    match sorted.find? inRange with
    | some c => some c.output_dim
    | none => sorted.head?.map (·.output_dim)

/-- First-encountered maximum-index candidate of a list: the element with the
highest index, ties resolved in favour of the earliest occurrence.  Used to
state claim C1's selection rule. -/
def firstMaxIdx : List Cand → Option Cand
  | [] => none
  | x :: xs =>
    match firstMaxIdx xs with
    | none => some x
    | some m => if x.index < m.index then some m else some x

/-- Sortedness by descending index. -/
abbrev SortedDesc (l : List Cand) : Prop :=
  l.Pairwise (fun a b => b.index ≤ a.index)

theorem insertDesc_of_le (x : Cand) (l : List Cand)
    (h : ∀ y ∈ l, y.index ≤ x.index) : insertDesc x l = x :: l := by
  cases l with
  | nil => rfl
  | cons y ys =>
    simp only [insertDesc]
    rw [if_pos (h y (List.mem_cons_self y ys))]

theorem mem_insertDesc {z x : Cand} {l : List Cand}
    (h : z ∈ insertDesc x l) : z = x ∨ z ∈ l := by
  induction l with
  | nil => simpa [insertDesc] using h
  | cons y ys ih =>
    by_cases hle : y.index ≤ x.index
    · simp only [insertDesc, if_pos hle] at h
      rcases List.mem_cons.mp h with h1 | h1
      · exact Or.inl h1
      · exact Or.inr h1
    · simp only [insertDesc, if_neg hle] at h
      rcases List.mem_cons.mp h with h1 | h1
      · exact Or.inr (by rw [h1]; exact List.mem_cons_self y ys)
      · rcases ih h1 with h2 | h2
        · exact Or.inl h2
        · exact Or.inr (List.mem_cons_of_mem y h2)

theorem sortedDesc_insertDesc (x : Cand) (l : List Cand)
    (hl : SortedDesc l) : SortedDesc (insertDesc x l) := by
  induction l with
  | nil => simp [insertDesc]
  | cons y ys ih =>
    rcases List.pairwise_cons.mp hl with ⟨hy, hys⟩
    simp only [insertDesc]
    by_cases hle : y.index ≤ x.index
    · rw [if_pos hle]
      refine List.pairwise_cons.mpr ⟨?_, hl⟩
      intro z hz
      rcases List.mem_cons.mp hz with h | h
      · rw [h]; exact hle
      · exact Nat.le_trans (hy z h) hle
    · rw [if_neg hle]
      refine List.pairwise_cons.mpr ⟨?_, ih hys⟩
      intro z hz
      rcases mem_insertDesc hz with h | h
      · rw [h]; omega
      · exact hy z h

theorem sortDesc_sorted (l : List Cand) : SortedDesc (sortDesc l) := by
  induction l with
  | nil => simp [sortDesc, SortedDesc]
  | cons x xs ih => exact sortedDesc_insertDesc x (sortDesc xs) ih

theorem insertDesc_ne_nil (x : Cand) (l : List Cand) : insertDesc x l ≠ [] := by
  cases l with
  | nil => simp [insertDesc]
  | cons y ys =>
    simp only [insertDesc]
    split <;> simp

theorem sortDesc_eq_nil_iff (l : List Cand) : sortDesc l = [] ↔ l = [] := by
  cases l with
  | nil => simp [sortDesc]
  | cons x xs =>
    simp only [sortDesc]
    exact ⟨fun h => absurd h (insertDesc_ne_nil x (sortDesc xs)), fun h => by cases h⟩

theorem filter_insertDesc (p : Cand → Bool) (x : Cand) (l : List Cand)
    (hl : SortedDesc l) :
    (insertDesc x l).filter p =
      if p x = true then insertDesc x (l.filter p) else l.filter p := by
  induction l with
  | nil => cases hpx : p x <;> simp [insertDesc, List.filter_cons, hpx]
  | cons y ys ih =>
    rcases List.pairwise_cons.mp hl with ⟨hy, hys⟩
    have ihx := ih hys
    simp only [insertDesc]
    by_cases hle : y.index ≤ x.index
    · rw [if_pos hle]
      have hall : ∀ z ∈ (y :: ys).filter p, z.index ≤ x.index := by
        intro z hz
        have hz' := List.mem_of_mem_filter hz
        rcases List.mem_cons.mp hz' with h | h
        · rw [h]; exact hle
        · exact Nat.le_trans (hy z h) hle
      cases hpx : p x
      · rw [if_neg (by simp), List.filter_cons, if_neg (by simp [hpx])]
      · rw [if_pos rfl, insertDesc_of_le x _ hall, List.filter_cons, if_pos hpx]
    · rw [if_neg hle]
      cases hpx : p x <;> cases hpy : p y <;>
        simp [List.filter_cons, hpx, hpy, ihx, insertDesc, hle]

theorem filter_sortDesc (p : Cand → Bool) (l : List Cand) :
    (sortDesc l).filter p = sortDesc (l.filter p) := by
  induction l with
  | nil => simp [sortDesc]
  | cons x xs ih =>
    simp only [sortDesc]
    rw [filter_insertDesc p x (sortDesc xs) (sortDesc_sorted xs), ih,
      List.filter_cons]
    cases hpx : p x <;> simp [hpx, sortDesc]

theorem head?_insertDesc (x : Cand) (l : List Cand) :
    (insertDesc x l).head? =
      match l with
      | [] => some x
      | y :: _ => if y.index ≤ x.index then some x else some y := by
  cases l with
  | nil => rfl
  | cons y ys =>
    simp only [insertDesc]
    split <;> simp

theorem head?_sortDesc (l : List Cand) : (sortDesc l).head? = firstMaxIdx l := by
  induction l with
  | nil => rfl
  | cons x xs ih =>
    simp only [sortDesc, firstMaxIdx]
    cases hs : sortDesc xs with
    | nil =>
      have hxs : xs = [] := (sortDesc_eq_nil_iff xs).mp hs
      subst hxs
      rfl
    | cons y ys =>
      rw [hs] at ih
      simp only [List.head?_cons] at ih
      rw [head?_insertDesc, ← ih]
      show (if y.index ≤ x.index then some x else some y) =
        (if x.index < y.index then some y else some x)
      by_cases hle : y.index ≤ x.index
      · rw [if_pos hle, if_neg (by omega)]
      · rw [if_neg hle, if_pos (by omega)]

theorem find?_eq_head?_filter (p : Cand → Bool) (l : List Cand) :
    l.find? p = (l.filter p).head? := by
  induction l with
  | nil => rfl
  | cons x xs ih =>
    cases hpx : p x
    · have h1 : List.find? p (x :: xs) = List.find? p xs := by
        simp [List.find?_cons, hpx]
      rw [h1, ih, List.filter_cons, if_neg (by simp [hpx])]
    · have h1 : List.find? p (x :: xs) = some x := by
        simp [List.find?_cons, hpx]
      rw [h1, List.filter_cons, if_pos hpx, List.head?_cons]

/-- Claim C1: for every state dict, class-count inference returns the
output_dim of the first-encountered highest-layer-index candidate whose
output_dim lies in the closed range 2..100; if no candidate is in range it
returns the output_dim of the first-encountered highest-layer-index candidate
regardless of width; and with no candidates at all it returns none. -/
theorem detect_num_classes_selection_rule (sd : StateDict) :
    detect_num_classes_from_checkpoint sd =
      match firstMaxIdx ((collectCandidates sd).filter inRange) with
      | some c => some c.output_dim
      | none => (firstMaxIdx (collectCandidates sd)).map (·.output_dim) := by
  unfold detect_num_classes_from_checkpoint
  cases hc : collectCandidates sd with
  | nil => rfl
  | cons c0 cs =>
    simp only [List.isEmpty_cons, Bool.false_eq_true, if_false]
    rw [find?_eq_head?_filter, filter_sortDesc, head?_sortDesc, head?_sortDesc]

/-! ### Claim C4's candidate description as worded, for comparison. -/

/-- First embedded integer token of a string: the value of the first maximal
run of decimal digits, 0 when there is none.  This follows claim C4's words
(layer_index is the first embedded integer token in the key). -/
def firstIntTokenAux : List Char → Nat
  | [] => 0
  | c :: cs =>
    if c.isDigit then natOfDigits (digitRun (c :: cs)).1
    else firstIntTokenAux cs

/-- First embedded integer token of a string, see firstIntTokenAux. -/
def firstIntToken (s : String) : Nat := firstIntTokenAux s.data

/-- Formalisation of claim C4's candidate description exactly as worded:
entries whose key contains classifier, fc, or head case-insensitively and
whose shape has exactly two dimensions, with layer_index the first embedded
integer token of the key, defaulting to 0.  Written from the claim text, to
be compared with collectCandidates, which is translated from the source. -/
def claimedCollectCandidates (sd : StateDict) : List Cand :=
  sd.filterMap fun kv =>
    if (classifierTerms.any fun t => containsSub t (lowerStr kv.1))
        && kv.2.shape.length == 2 then
      some ⟨kv.1, kv.2.shape.getD 0 0, kv.2.shape.getD 1 0, firstIntToken kv.1⟩
    else none

/-- A two-element list of dimension sizes is its two positional reads. -/
theorem shape_eq_pair {s : List Nat} (h : s.length = 2) :
    s = [s.getD 0 0, s.getD 1 0] := by
  cases s with
  | nil => simp at h
  | cons a t =>
    cases t with
    | nil => simp at h
    | cons b t2 =>
      cases t2 with
      | nil => rfl
      | cons c t3 => simp [List.length_cons] at h

/-- A state dict exhibiting both divergences of claim C4 from the code: the
key head.proj has a two-dimensional shape and a classifier term but no
weight substring, and the key fc2.weight holds the integer token 2 that is
not enclosed between dots. -/
def c4CexSD : StateDict := [("head.proj", ⟨[4, 8], 0⟩), ("fc2.weight", ⟨[4, 8], 0⟩)]

/-- Claim C4 counterexample: on c4CexSD the code collects only the
fc2.weight entry, with layer index 0, while the claim's description collects
both entries and assigns fc2.weight the index 2. -/
theorem collectCandidates_claim_cex :
    collectCandidates c4CexSD ≠ claimedCollectCandidates c4CexSD := by decide

/-- Claim C4 as amended: a candidate is collected exactly from an entry
whose key contains the substring weight, contains classifier, fc, or head
case-insensitively, and whose shape has exactly two dimensions; its
output and input dims are the two shape positions and its layer index is
extractLayerIndex of the key, which reads the first integer token enclosed
between two dots, defaulting to 0. -/
theorem collectCandidates_characterization (sd : StateDict) (c : Cand) :
    c ∈ collectCandidates sd ↔
      ∃ kv ∈ sd, kv.1 = c.key ∧ kv.2.shape = [c.output_dim, c.input_dim] ∧
        containsSub "weight".data c.key.data = true ∧
        (classifierTerms.any fun t => containsSub t (lowerStr c.key)) = true ∧
        c.index = extractLayerIndex c.key := by
  unfold collectCandidates
  rw [List.mem_filterMap]
  constructor
  · rintro ⟨kv, hmem, heq⟩
    by_cases hcond : (containsSub "weight".data kv.1.data
        && kv.2.shape.length == 2
        && classifierTerms.any (fun t => containsSub t (lowerStr kv.1))) = true
    · rw [if_pos hcond] at heq
      have hc := Option.some.inj heq
      simp only [Bool.and_eq_true, beq_iff_eq] at hcond
      obtain ⟨⟨hw, hlen⟩, hterms⟩ := hcond
      subst hc
      exact ⟨kv, hmem, rfl, shape_eq_pair hlen, hw, hterms, rfl⟩
    · rw [if_neg hcond] at heq
      cases heq
  · rintro ⟨kv, hmem, hkey, hsh, hw, hterms, hidx⟩
    refine ⟨kv, hmem, ?_⟩
    have hcond : (containsSub "weight".data kv.1.data
        && kv.2.shape.length == 2
        && classifierTerms.any (fun t => containsSub t (lowerStr kv.1))) = true := by
      rw [hkey, hsh]
      simp [hw, hterms]
    rw [if_pos hcond]
    rcases c with ⟨ck, co, ci, cix⟩
    simp only at hkey hsh hidx
    subst hkey
    rw [hsh, hidx]
    rfl

/-- Claim C4 amended-claim witness at a concrete candidate. -/
theorem collectCandidates_characterization_witness :
    (⟨"fc2.weight", 4, 8, 0⟩ : Cand) ∈ collectCandidates c4CexSD :=
  (collectCandidates_characterization c4CexSD ⟨"fc2.weight", 4, 8, 0⟩).mpr
    ⟨("fc2.weight", ⟨[4, 8], 0⟩), by decide, rfl, rfl, by decide, by decide, by decide⟩

/-! ### Artifact Normalizer
Embedding of the checkpoint-format handling in load_model
(src/backend/app.py lines 240-257). -/

/-- A deserialized Python checkpoint object: either a tensor-like leaf or a
dict with string keys, in insertion order. -/
inductive PyObj where
  | tensor (t : Tensor)
  | dict (entries : List (String × PyObj))

/-- The case-insensitive fallback scan predicate of lines 250-253: the
lower-cased key contains the substring state_dict or the substring model. -/
def normScanPred (kv : String × PyObj) : Bool :=
  containsSub "state_dict".data (lowerStr kv.1)
    || containsSub "model".data (lowerStr kv.1)

/-- Embedding of the checkpoint normalization of load_model (lines 240-257):
a non-dict artifact is itself the parameter map; a dict is probed for the
exact keys model_state_dict, state_dict, model in that order; failing that,
the first key whose lower-cased form contains state_dict or model wins; and
failing that the dict itself is the parameter map. -/
def normalizeCkpt : PyObj → PyObj
  | PyObj.tensor t => PyObj.tensor t
  | PyObj.dict es =>
    match es.lookup "model_state_dict" with
    | some v => v
    | none =>
      match es.lookup "state_dict" with
      | some v => v
      | none =>
        match es.lookup "model" with
        | some v => v
        | none =>
          match es.find? normScanPred with
          | some kv => kv.2
          | none => PyObj.dict es

/-- Claim C3: artifact normalization is total and deterministic: a non-dict
input is returned unchanged; a dict yields the value of the first present
key of the priority list model_state_dict, state_dict, model; failing that,
the value of the first key containing state_dict or model case-insensitively;
and failing that the dict itself.  Totality holds because normalizeCkpt is a
Lean function covering every constructor. -/
theorem normalize_characterization :
    (∀ t, normalizeCkpt (PyObj.tensor t) = PyObj.tensor t) ∧
    (∀ es v, es.lookup "model_state_dict" = some v →
      normalizeCkpt (PyObj.dict es) = v) ∧
    (∀ es v, es.lookup "model_state_dict" = none →
      es.lookup "state_dict" = some v →
      normalizeCkpt (PyObj.dict es) = v) ∧
    (∀ es v, es.lookup "model_state_dict" = none →
      es.lookup "state_dict" = none →
      es.lookup "model" = some v →
      normalizeCkpt (PyObj.dict es) = v) ∧
    (∀ es kv, es.lookup "model_state_dict" = none →
      es.lookup "state_dict" = none →
      es.lookup "model" = none →
      es.find? normScanPred = some kv →
      normalizeCkpt (PyObj.dict es) = kv.2) ∧
    (∀ es, es.lookup "model_state_dict" = none →
      es.lookup "state_dict" = none →
      es.lookup "model" = none →
      es.find? normScanPred = none →
      normalizeCkpt (PyObj.dict es) = PyObj.dict es) := by
  refine ⟨fun t => rfl, ?_, ?_, ?_, ?_, ?_⟩
  · intro es v h1
    simp [normalizeCkpt, h1]
  · intro es v h1 h2
    simp [normalizeCkpt, h1, h2]
  · intro es v h1 h2 h3
    simp [normalizeCkpt, h1, h2, h3]
  · intro es kv h1 h2 h3 h4
    simp [normalizeCkpt, h1, h2, h3, h4]
  · intro es h1 h2 h3 h4
    simp [normalizeCkpt, h1, h2, h3, h4]

/-- Claim C3 witness: a dict wrapped under the key state_dict normalizes to
the wrapped value. -/
theorem normalize_characterization_witness :
    normalizeCkpt (PyObj.dict [("state_dict", PyObj.tensor ⟨[1], 0⟩)]) =
      PyObj.tensor ⟨[1], 0⟩ :=
  normalize_characterization.2.2.1 _ _ rfl rfl

/-! ### Variant Selector
Embedding of the variant detection in load_model
(src/backend/app.py lines 294-304) against the two classifier heads of
BinaryCNN_Deep (src/backend/models.py lines 283-322); every other family
is built with the default variant, since create_model_architecture passes
the variant argument only to BinaryCNN_Deep (models.py line 409). -/

/-- Embedding of lines 294-304 of app.py: the variant starts as default;
only for BinaryCNN_Deep the state dict is scanned for an entry whose key
contains classifier.4.weight, has a two-dimensional shape, first dimension
equal to the detected class count and second dimension 128; such an entry
selects the simple variant (the loop breaks only on success, so the scan is
an existence test). -/
def selectVariant (model_name : String) (num_classes : Nat) (sd : StateDict) : String :=
  if model_name = "BinaryCNN_Deep" then
    if sd.any (fun kv =>
        containsSub "classifier.4.weight".data kv.1.data
          && kv.2.shape.length == 2
          && kv.2.shape.getD 0 0 == num_classes
          && kv.2.shape.getD 1 0 == 128) then
      "simple"
    else "default"
  else "default"

/-- Formalisation of claim C5's selection rule exactly as worded: the simple
variant is selected if and only if some entry at a key containing
classifier.4.weight has a two-dimensional shape with second dimension 128,
the first dimension being unused in the check.  Written from the claim text,
to be compared with selectVariant, which is translated from the source. -/
def claimedSelectVariant (model_name : String) (sd : StateDict) : String :=
  if model_name = "BinaryCNN_Deep" then
    if sd.any (fun kv =>
        containsSub "classifier.4.weight".data kv.1.data
          && kv.2.shape.length == 2
          && kv.2.shape.getD 1 0 == 128) then
      "simple"
    else "default"
  else "default"

/-- A state dict whose head entry has second dimension 128 but first
dimension 5, different from the detected class count 2. -/
def c5CexSD : StateDict := [("classifier.4.weight", ⟨[5, 128], 0⟩)]

/-- Claim C5 counterexample: with detected class count 2 and a
classifier.4.weight entry of shape 5 by 128, the code keeps the default
variant because it compares the first dimension against the class count,
while the claim's rule, which ignores the first dimension, selects simple. -/
theorem selectVariant_claim_cex :
    selectVariant "BinaryCNN_Deep" 2 c5CexSD = "default" ∧
    claimedSelectVariant "BinaryCNN_Deep" c5CexSD = "simple" := by
  exact ⟨rfl, rfl⟩

/-- Claim C5 as amended: the simple variant is selected if and only if the
family is BinaryCNN_Deep and some entry at a key containing
classifier.4.weight has shape exactly the detected class count by 128, the
first dimension being checked against the class count; every other family
is built with the default variant unconditionally. -/
theorem selectVariant_characterization (name : String) (n : Nat) (sd : StateDict) :
    (selectVariant name n sd = "simple" ↔
      name = "BinaryCNN_Deep" ∧ ∃ kv ∈ sd,
        containsSub "classifier.4.weight".data kv.1.data = true ∧
        kv.2.shape = [n, 128]) ∧
    (name ≠ "BinaryCNN_Deep" → selectVariant name n sd = "default") := by
  constructor
  · unfold selectVariant
    by_cases hn : name = "BinaryCNN_Deep"
    · rw [if_pos hn]
      by_cases hany : (sd.any (fun kv =>
          containsSub "classifier.4.weight".data kv.1.data
            && kv.2.shape.length == 2
            && kv.2.shape.getD 0 0 == n
            && kv.2.shape.getD 1 0 == 128)) = true
      · rw [if_pos hany]
        simp only [true_iff]
        refine ⟨hn, ?_⟩
        rcases List.any_eq_true.mp hany with ⟨kv, hmem, hkv⟩
        simp only [Bool.and_eq_true, beq_iff_eq] at hkv
        obtain ⟨⟨⟨hsub, hlen⟩, hd0⟩, hd1⟩ := hkv
        refine ⟨kv, hmem, hsub, ?_⟩
        rw [shape_eq_pair hlen, hd0, hd1]
      · rw [if_neg hany]
        constructor
        · intro habs
          exact absurd habs (by decide)
        · rintro ⟨-, kv, hmem, hsub, hsh⟩
          refine absurd (List.any_eq_true.mpr ⟨kv, hmem, ?_⟩) hany
          simp only [Bool.and_eq_true, beq_iff_eq]
          exact ⟨⟨⟨hsub, by rw [hsh]; rfl⟩, by rw [hsh]; rfl⟩, by rw [hsh]; rfl⟩
    · rw [if_neg hn]
      constructor
      · intro habs
        exact absurd habs (by decide)
      · rintro ⟨h1, -⟩
        exact absurd h1 hn
  · intro h
    unfold selectVariant
    rw [if_neg h]

/-- Claim C5 amended-claim witness: a family other than BinaryCNN_Deep gets
the default variant. -/
theorem selectVariant_characterization_witness :
    selectVariant "CustomCNN1" 5 [] = "default" :=
  (selectVariant_characterization "CustomCNN1" 5 []).2 (by decide)

/-! ### Weight Loader
Embedding of the tiered weight binding of load_model
(src/backend/app.py lines 310-356). -/

/-- A key the fallback loader skipped (lines 334-343): a shape mismatch is
recorded with the checkpoint shape then the model shape, exactly as the
formatted string at line 341 records them; a checkpoint key the model does
not own is recorded as not in model. -/
inductive IncompatEntry where
  | shapeMismatch (key : String) (ckptShape modelShape : List Nat)
  | notInModel (key : String)
deriving DecidableEq, Repr

/-- Load diagnostics surfaced by the binder. -/
structure LoadDiagnostics where
  missing_keys : List String
  unexpected_keys : List String
  incompatible_keys : List IncompatEntry
deriving DecidableEq, Repr

/-- True when some checkpoint key also exists in the model with a different
shape.  Torch load_state_dict with the strict flag off copies matching keys
but raises a size-mismatch RuntimeError exactly in this situation, which
app.py catches at line 324 to enter the partial-load fallback. -/
def hasSizeMismatch (modelState sd : StateDict) : Bool :=
  sd.any fun kv =>
    match modelState.lookup kv.1 with
    | some t => !(kv.2.shape == t.shape)
    | none => false

/-- The compatible entries kept by the fallback loop at lines 336-339: keys
that exist in the model with an identical shape. -/
def compatibleEntries (modelState sd : StateDict) : StateDict :=
  sd.filter fun kv =>
    match modelState.lookup kv.1 with
    | some t => kv.2.shape == t.shape
    | none => false

/-- The incompatible entries recorded by the same loop (lines 340-343), in
checkpoint order. -/
def incompatibleEntries (modelState sd : StateDict) : List IncompatEntry :=
  sd.filterMap fun kv =>
    match modelState.lookup kv.1 with
    | some t =>
      if kv.2.shape == t.shape then none
      else some (IncompatEntry.shapeMismatch kv.1 kv.2.shape t.shape)
    | none => some (IncompatEntry.notInModel kv.1)

/-- Semantics of torch load_state_dict with the strict flag off on a map
whose shared keys all shape-match: every model parameter whose key occurs in
the map receives the map's value; the rest keep their current value. -/
def applyCompatible (modelState compat : StateDict) : StateDict :=
  modelState.map fun kv =>
    match compat.lookup kv.1 with
    | some v => (kv.1, v)
    | none => kv

/-- Embedding of the weight-binding protocol of load_model (lines 310-356):
when no shared key has a shape mismatch the first strict-relaxed attempt
succeeds, binding all shared keys and reporting missing and unexpected keys;
otherwise the torch call raises, the fallback filters the checkpoint to the
compatible entries, records every skipped key, and binds only the
compatible entries.  The function is total: binding never fails. -/
def bindWeights (modelState sd : StateDict) : StateDict × LoadDiagnostics :=
  if hasSizeMismatch modelState sd then
    (applyCompatible modelState (compatibleEntries modelState sd),
      ⟨[], [], incompatibleEntries modelState sd⟩)
  else
    (applyCompatible modelState sd,
      ⟨modelState.filterMap fun kv =>
          if (sd.lookup kv.1).isNone then some kv.1 else none,
        sd.filterMap fun kv =>
          if (modelState.lookup kv.1).isNone then some kv.1 else none,
        []⟩)

theorem lookup_mem_pair {sd : StateDict} {k : String} {v : Tensor}
    (h : sd.lookup k = some v) : (k, v) ∈ sd := by
  induction sd with
  | nil => cases h
  | cons p rest ih =>
    obtain ⟨a, b⟩ := p
    cases hk : k == a with
    | true =>
      simp only [List.lookup, hk] at h
      have hv := Option.some.inj h
      have hka : k = a := eq_of_beq hk
      rw [← hka, ← hv]
      exact List.mem_cons_self (k, b) rest
    | false =>
      simp only [List.lookup, hk] at h
      exact List.mem_cons_of_mem (a, b) (ih h)

theorem lookup_eq_none_of_not_mem_keys {sd : StateDict} {k : String}
    (h : k ∉ sd.map Prod.fst) : sd.lookup k = none := by
  induction sd with
  | nil => rfl
  | cons p rest ih =>
    obtain ⟨a, b⟩ := p
    simp only [List.map_cons, List.mem_cons] at h
    push_neg at h
    obtain ⟨hka, hrest⟩ := h
    have hk : (k == a) = false := by
      rw [beq_eq_false_iff_ne]
      exact hka
    simp only [List.lookup, hk]
    exact ih hrest

theorem lookup_filter_none {sd : StateDict} {k : String}
    (q : String × Tensor → Bool)
    (h : k ∉ sd.map Prod.fst) : (sd.filter q).lookup k = none := by
  induction sd with
  | nil => rfl
  | cons p rest ih =>
    obtain ⟨a, b⟩ := p
    simp only [List.map_cons, List.mem_cons] at h
    push_neg at h
    obtain ⟨hka, hrest⟩ := h
    have hk : (k == a) = false := by
      rw [beq_eq_false_iff_ne]
      exact hka
    rw [List.filter_cons]
    by_cases hq : q (a, b) = true
    · rw [if_pos hq]
      simp only [List.lookup, hk]
      exact ih hrest
    · rw [if_neg hq]
      exact ih hrest

theorem keys_applyCompatible (modelState compat : StateDict) :
    (applyCompatible modelState compat).map Prod.fst = modelState.map Prod.fst := by
  induction modelState with
  | nil => rfl
  | cons p rest ih =>
    obtain ⟨a, b⟩ := p
    simp only [applyCompatible, List.map_cons] at ih ⊢
    cases hc : compat.lookup a <;> simp [hc, ih]

theorem lookup_applyCompatible (modelState compat : StateDict) (k : String)
    (t : Tensor) (h : modelState.lookup k = some t) :
    (applyCompatible modelState compat).lookup k =
      some (match compat.lookup k with | some v => v | none => t) := by
  induction modelState with
  | nil => cases h
  | cons p rest ih =>
    obtain ⟨a, b⟩ := p
    cases hk : k == a with
    | true =>
      simp only [List.lookup, hk] at h
      have hv := Option.some.inj h
      have hka : k = a := eq_of_beq hk
      subst hka
      subst hv
      simp only [applyCompatible, List.map_cons]
      cases hc : compat.lookup k <;>
        simp only [List.lookup, hk, hc]
    | false =>
      simp only [List.lookup, hk] at h
      simp only [applyCompatible, List.map_cons] at ih ⊢
      cases hc : compat.lookup a <;>
        simp only [List.lookup, hk, hc, ih h]

theorem lookup_compatibleEntries (modelState sd : StateDict) (k : String)
    (hnd : (sd.map Prod.fst).Nodup) :
    (compatibleEntries modelState sd).lookup k =
      match sd.lookup k with
      | some v =>
        match modelState.lookup k with
        | some t => if v.shape = t.shape then some v else none
        | none => none
      | none => none := by
  induction sd with
  | nil => rfl
  | cons p rest ih =>
    obtain ⟨a, b⟩ := p
    simp only [List.map_cons, List.nodup_cons] at hnd
    obtain ⟨hna, hndr⟩ := hnd
    cases hk : k == a with
    | true =>
      have hka : k = a := eq_of_beq hk
      subst hka
      simp only [List.lookup, hk]
      unfold compatibleEntries
      rw [List.filter_cons]
      cases hm : modelState.lookup k with
      | none =>
        simp only [hm]
        rw [if_neg (by simp [hm])]
        exact lookup_filter_none _ hna
      | some t =>
        by_cases hsh : b.shape = t.shape
        · rw [if_pos (by simp [hm, hsh])]
          simp only [List.lookup, hk, hm]
          rw [if_pos hsh]
        · rw [if_neg (by simp [hm, hsh])]
          rw [lookup_filter_none _ hna]
          simp [hsh]
    | false =>
      simp only [List.lookup, hk]
      unfold compatibleEntries at ih ⊢
      rw [List.filter_cons]
      by_cases hq : (match modelState.lookup a with
          | some t => b.shape == t.shape
          | none => false) = true
      · rw [if_pos hq]
        simp only [List.lookup, hk]
        exact ih hndr
      · rw [if_neg hq]
        exact ih hndr

/-- Claim C2: binding a parameter map with at least one shape-mismatched
shared key still succeeds and returns a usable model: the bound model keeps
exactly the architecture's parameter keys; a model parameter receives the
checkpoint value exactly when the checkpoint holds its key at an identical
shape, and otherwise keeps its architecture-constructor value; and every
shape-mismatched shared key is recorded in the incompatible diagnostics
together with both shapes.  The checkpoint map is assumed to have unique
keys, as a Python dict guarantees. -/
theorem bindWeights_partial_load (modelState sd : StateDict)
    (hnd : (sd.map Prod.fst).Nodup)
    (hmm : hasSizeMismatch modelState sd = true) :
    ((bindWeights modelState sd).1.map Prod.fst = modelState.map Prod.fst) ∧
    (∀ k t, modelState.lookup k = some t →
      (bindWeights modelState sd).1.lookup k =
        some (match sd.lookup k with
          | some v => if v.shape = t.shape then v else t
          | none => t)) ∧
    (∀ k v t, sd.lookup k = some v → modelState.lookup k = some t →
      v.shape ≠ t.shape →
      IncompatEntry.shapeMismatch k v.shape t.shape
        ∈ (bindWeights modelState sd).2.incompatible_keys) := by
  refine ⟨?_, ?_, ?_⟩
  · simp only [bindWeights, if_pos hmm]
    exact keys_applyCompatible _ _
  · intro k t h
    simp only [bindWeights, if_pos hmm]
    rw [lookup_applyCompatible _ _ k t h,
      lookup_compatibleEntries modelState sd k hnd]
    cases hsd : sd.lookup k with
    | none => rfl
    | some v =>
      rw [h]
      by_cases hsh : v.shape = t.shape <;> simp [hsh]
  · intro k v t hsd hms hne
    simp only [bindWeights, if_pos hmm]
    unfold incompatibleEntries
    rw [List.mem_filterMap]
    refine ⟨(k, v), lookup_mem_pair hsd, ?_⟩
    simp only [hms]
    have hb : (v.shape == t.shape) = false := beq_eq_false_iff_ne.mpr hne
    simp [hb]

/-- A concrete model parameter set, the conv entry clashing in shape with
the checkpoint below. -/
def msW2 : StateDict := [("conv.weight", ⟨[2, 3], 10⟩), ("fc.weight", ⟨[4, 2], 11⟩)]

/-- A concrete checkpoint with one shape mismatch, one compatible entry and
one key the model does not own. -/
def sdW2 : StateDict :=
  [("conv.weight", ⟨[9, 9], 20⟩), ("fc.weight", ⟨[4, 2], 21⟩), ("extra", ⟨[1], 22⟩)]

/-- Claim C2 witness: the compatible key receives the checkpoint value. -/
theorem bindWeights_partial_load_witness :
    (bindWeights msW2 sdW2).1.lookup "fc.weight" = some ⟨[4, 2], 21⟩ :=
  (bindWeights_partial_load msW2 sdW2 (by decide) (by decide)).2.1
    "fc.weight" ⟨[4, 2], 11⟩ rfl

/-! ### Model Cache and load_model
Embedding of load_model (src/backend/app.py lines 219-366) as a state
transformer over the process-wide tables and the file system. -/

/-- Model configuration entry as stored in the model_configs table. -/
structure ModelConfig where
  num_classes : Nat
  class_names : List String
deriving DecidableEq, Repr

/-- A loaded, weight-bound model instance as cached in loaded_models. -/
structure Model where
  arch_name : String
  num_classes : Nat
  variant : String
  params : StateDict
deriving DecidableEq, Repr

/-- The failure modes of load_model: the not-found ValueError of line 226
(raised both when the name is absent from the path table and when the
recorded path fails the existence check), the errors propagated when reading
or interpreting the artifact fails (torch.load raising leaves state_dict
unbound, which later raises uncaught), and the unknown-architecture
ValueError of create_model_architecture (models.py line 413). -/
inductive LoadErr where
  | modelNotFound
  | artifactReadError
  | unknownArchitecture
deriving DecidableEq, Repr

/-- The process state consumed and produced by load_model: the three global
tables of app.py lines 68-70 and the file system, mapping a path to none
when the file exists but cannot be deserialized, with no entry at all when
the file does not exist (os.path.exists is false). -/
structure AppState where
  loaded_models : List (String × Model)
  model_paths : List (String × String)
  model_configs : List (String × ModelConfig)
  fs : List (String × Option PyObj)

/-- Python dict assignment on an association list: replace the value at an
existing key in place, else append the new pair. -/
def setAssoc {α : Type} : List (String × α) → String → α → List (String × α)
  | [], k, v => [(k, v)]
  | (a, b) :: t, k, v =>
    if a == k then (k, v) :: t else (a, b) :: setAssoc t k v

theorem lookup_setAssoc_self {α : Type} (l : List (String × α)) (k : String)
    (v : α) : (setAssoc l k v).lookup k = some v := by
  induction l with
  | nil => simp [setAssoc, List.lookup]
  | cons p t ih =>
    obtain ⟨a, b⟩ := p
    by_cases hp : (a == k) = true
    · simp only [setAssoc, if_pos hp]
      simp [List.lookup]
    · simp only [setAssoc, if_neg hp]
      have hne : a ≠ k := fun hh => hp (by rw [hh, beq_self_eq_true])
      have hk : (k == a) = false := beq_eq_false_iff_ne.mpr (Ne.symm hne)
      simp only [List.lookup, hk]
      exact ih

/-- The class-name table of load_model lines 266-275: the fixed binary pair
for 2, the five coffee-disease names for 5, generated names for 10 (the
source writes this case separately with the same generated form) and for
every other count. -/
def classNamesFor (n : Nat) : List String :=
  if n = 2 then ["Healthy", "Not Healthy"]
  else if n = 5 then ["Cerscospora", "Healthy", "Leaf rust", "Miner", "Phoma"]
  else if n = 10 then (List.range n).map (fun i => "Class_" ++ toString i)
  else (List.range n).map (fun i => "Class_" ++ toString i)

theorem classNamesFor_length (n : Nat) : (classNamesFor n).length = n := by
  unfold classNamesFor
  by_cases h2 : n = 2
  · rw [if_pos h2, h2]; rfl
  · rw [if_neg h2]
    by_cases h5 : n = 5
    · rw [if_pos h5, h5]; rfl
    · rw [if_neg h5]
      by_cases h10 : n = 10
      · rw [if_pos h10]; simp
      · rw [if_neg h10]; simp

/-- Conversion of a dict artifact's entries to a parameter map, defined when
every value is a tensor. -/
def entriesToSD : List (String × PyObj) → Option StateDict
  | [] => some []
  | (k, PyObj.tensor t) :: rest =>
    (entriesToSD rest).map (fun sd => (k, t) :: sd)
  | (_, PyObj.dict _) :: _ => none

/-- Conversion of a normalized artifact to a parameter map: a dict whose
values are all tensors.  An artifact failing this conversion makes the
Python pipeline raise while inspecting tensors (attribute errors on
non-tensor values, propagated uncaught through lines 296-313), mapped to
the artifact-read error below. -/
def toStateDict : PyObj → Option StateDict
  | PyObj.dict es => entriesToSD es
  | PyObj.tensor _ => none

/-- The registered architecture families of create_model_architecture
(src/backend/models.py lines 389-415), in source order. -/
def knownArchNames : List String :=
  ["ShuffleNet", "MobileNetV3", "EfficientNet", "CustomCNN1", "CustomCNN2",
    "CustomCNN3", "BinaryCNN_Light", "BinaryCNN_Deep", "BinaryCNN_Efficient"]

/-- Architecture construction and weight binding (app.py lines 306-364):
create_model_architecture raises its unknown-name ValueError outside every
try block, else the instance is built from the abstract constructor table
initParams, weights are bound, and the model is written to the cache.
create_model_architecture passes the variant argument only to
BinaryCNN_Deep; initParams abstracts over all constructors uniformly. -/
def buildModel (initParams : String → Nat → String → StateDict) (name : String)
    (n : Nat) (variant : String) (sd : StateDict) (st1 : AppState) :
    Except LoadErr Model × AppState :=
  if name ∈ knownArchNames then
    (Except.ok
      (⟨name, n, variant, (bindWeights (initParams name n variant) sd).1⟩ : Model),
      { st1 with loaded_models :=
          (setAssoc st1.loaded_models name
            ⟨name, n, variant, (bindWeights (initParams name n variant) sd).1⟩) })
  else (Except.error LoadErr.unknownArchitecture, st1)

/-- The class-count phase of load_model (lines 259-307): on successful
detection the class count is the detected one and the model_configs table is
updated with it and its class names (lines 277-281); otherwise the default
from model_configs is used (5 when the table has no entry, line 230) and the
table is left unchanged.  Then the variant is selected and the model built. -/
def finishLoad (initParams : String → Nat → String → StateDict) (name : String)
    (sd : StateDict) (st : AppState) : Except LoadErr Model × AppState :=
  match detect_num_classes_from_checkpoint sd with
  | some n =>
    buildModel initParams name n (selectVariant name n sd) sd
      { st with model_configs := setAssoc st.model_configs name ⟨n, classNamesFor n⟩ }
  | none =>
    let n :=
      match st.model_configs.lookup name with
      | some cfg => cfg.num_classes
      | none => 5
    buildModel initParams name n (selectVariant name n sd) sd st

/-- Artifact interpretation (app.py lines 236-307 continued): an artifact
whose normalized form is not a map of tensors makes the pipeline raise,
mapped to the artifact-read error; otherwise the load continues with the
parameter map. -/
def loadArtifact (initParams : String → Nat → String → StateDict) (name : String)
    (artifact : PyObj) (st : AppState) : Except LoadErr Model × AppState :=
  match toStateDict (normalizeCkpt artifact) with
  | none => (Except.error LoadErr.artifactReadError, st)
  | some sd => finishLoad initParams name sd st

/-- Path resolution (app.py lines 225-237): a recorded path that does not
exist raises the same not-found ValueError of line 226; a file that exists
but cannot be deserialized by torch.load makes load_model raise (the
checkpoint-reading exception is swallowed at line 289, but state_dict is
then unbound and the later uses raise uncaught), mapped to the artifact-read
error. -/
def loadFromPath (initParams : String → Nat → String → StateDict) (name : String)
    (path : String) (st : AppState) : Except LoadErr Model × AppState :=
  match st.fs.lookup path with
  | none => (Except.error LoadErr.modelNotFound, st)
  | some none => (Except.error LoadErr.artifactReadError, st)
  | some (some artifact) => loadArtifact initParams name artifact st

/-- Embedding of load_model (app.py lines 219-366): a cached name returns
the cached instance with no state change; an uncached name is resolved
through the path table (absence raises the not-found ValueError of line
226) and the file system, the artifact is read and normalized, the class
count inferred, the variant selected, the architecture built, the weights
bound, and the result cached.  Errors return the state reached when the
exception propagates; the cache is only written on success. -/
def loadModel (initParams : String → Nat → String → StateDict) (name : String)
    (st : AppState) : Except LoadErr Model × AppState :=
  match st.loaded_models.lookup name with
  | some m => (Except.ok m, st)
  | none =>
    match st.model_paths.lookup name with
    | none => (Except.error LoadErr.modelNotFound, st)
    | some path => loadFromPath initParams name path st

theorem loadModel_eq_cached (ip : String → Nat → String → StateDict)
    (name : String) (st : AppState) (m : Model)
    (h : st.loaded_models.lookup name = some m) :
    loadModel ip name st = (Except.ok m, st) := by
  unfold loadModel
  rw [h]

theorem loadModel_eq_noPath (ip : String → Nat → String → StateDict)
    (name : String) (st : AppState)
    (h1 : st.loaded_models.lookup name = none)
    (h2 : st.model_paths.lookup name = none) :
    loadModel ip name st = (Except.error LoadErr.modelNotFound, st) := by
  unfold loadModel
  rw [h1, h2]

theorem loadModel_eq_path (ip : String → Nat → String → StateDict)
    (name : String) (st : AppState) (path : String)
    (h1 : st.loaded_models.lookup name = none)
    (h2 : st.model_paths.lookup name = some path) :
    loadModel ip name st = loadFromPath ip name path st := by
  unfold loadModel
  rw [h1, h2]

theorem loadFromPath_eq_noFile (ip : String → Nat → String → StateDict)
    (name path : String) (st : AppState)
    (h : st.fs.lookup path = none) :
    loadFromPath ip name path st = (Except.error LoadErr.modelNotFound, st) := by
  unfold loadFromPath
  rw [h]

theorem loadFromPath_eq_corrupt (ip : String → Nat → String → StateDict)
    (name path : String) (st : AppState)
    (h : st.fs.lookup path = some none) :
    loadFromPath ip name path st = (Except.error LoadErr.artifactReadError, st) := by
  unfold loadFromPath
  rw [h]

theorem loadFromPath_eq_artifact (ip : String → Nat → String → StateDict)
    (name path : String) (st : AppState) (artifact : PyObj)
    (h : st.fs.lookup path = some (some artifact)) :
    loadFromPath ip name path st = loadArtifact ip name artifact st := by
  unfold loadFromPath
  rw [h]

theorem loadArtifact_eq_bad (ip : String → Nat → String → StateDict)
    (name : String) (artifact : PyObj) (st : AppState)
    (h : toStateDict (normalizeCkpt artifact) = none) :
    loadArtifact ip name artifact st = (Except.error LoadErr.artifactReadError, st) := by
  unfold loadArtifact
  rw [h]

theorem loadArtifact_eq_sd (ip : String → Nat → String → StateDict)
    (name : String) (artifact : PyObj) (st : AppState) (sd : StateDict)
    (h : toStateDict (normalizeCkpt artifact) = some sd) :
    loadArtifact ip name artifact st = finishLoad ip name sd st := by
  unfold loadArtifact
  rw [h]

theorem buildModel_error_facts (ip : String → Nat → String → StateDict)
    (name : String) (n : Nat) (v : String) (sd : StateDict) (st1 : AppState) :
    (buildModel ip name n v sd st1).1 ≠ Except.error LoadErr.modelNotFound ∧
    (∀ e, (buildModel ip name n v sd st1).1 = Except.error e →
      (buildModel ip name n v sd st1).2.loaded_models = st1.loaded_models) := by
  unfold buildModel
  by_cases hk : name ∈ knownArchNames
  · rw [if_pos hk]
    exact ⟨by simp, fun e he => by simp at he⟩
  · rw [if_neg hk]
    exact ⟨fun habs => absurd (Except.error.inj habs) (by decide),
      fun e he => rfl⟩

theorem finishLoad_error_facts (ip : String → Nat → String → StateDict)
    (name : String) (sd : StateDict) (st : AppState) :
    (finishLoad ip name sd st).1 ≠ Except.error LoadErr.modelNotFound ∧
    (∀ e, (finishLoad ip name sd st).1 = Except.error e →
      (finishLoad ip name sd st).2.loaded_models = st.loaded_models) := by
  unfold finishLoad
  cases hdet : detect_num_classes_from_checkpoint sd with
  | some n => exact buildModel_error_facts ip name n _ sd _
  | none => exact buildModel_error_facts ip name _ _ sd st

theorem finishLoad_ok_cached (ip : String → Nat → String → StateDict)
    (name : String) (sd : StateDict) (st : AppState) (m : Model) (st' : AppState)
    (h : finishLoad ip name sd st = (Except.ok m, st')) :
    st'.loaded_models.lookup name = some m := by
  unfold finishLoad buildModel at h
  split at h
  · split at h
    · rw [Prod.mk.injEq] at h
      obtain ⟨hm, hst⟩ := h
      rw [← hst, ← Except.ok.inj hm]
      exact lookup_setAssoc_self _ _ _
    · simp at h
  · split at h <;> split at h
    · rw [Prod.mk.injEq] at h
      obtain ⟨hm, hst⟩ := h
      rw [← hst, ← Except.ok.inj hm]
      exact lookup_setAssoc_self _ _ _
    · simp at h
    · rw [Prod.mk.injEq] at h
      obtain ⟨hm, hst⟩ := h
      rw [← hst, ← Except.ok.inj hm]
      exact lookup_setAssoc_self _ _ _
    · simp at h

/-- A trivial architecture-constructor table used for concrete runs: every
family starts with no parameters of its own. -/
def ipW : String → Nat → String → StateDict := fun _ _ _ => []

/-- A state whose path table holds BinaryCNN_Light but whose file system
does not contain the recorded path (the file was removed after the scan). -/
def stC6 : AppState :=
  ⟨[], [("BinaryCNN_Light", "models/BinaryCNN_Light_best.pth")], [], []⟩

/-- Claim C6 counterexample: load_model fails with its not-found error
although BinaryCNN_Light is present in the path table, because the recorded
path fails the existence check of line 225; so failing with the not-found
error is not exactly characterized by absence from the path table. -/
theorem loadModel_notFound_claim_cex :
    (loadModel ipW "BinaryCNN_Light" stC6).1 = Except.error LoadErr.modelNotFound ∧
    stC6.model_paths.lookup "BinaryCNN_Light" =
      some "models/BinaryCNN_Light_best.pth" := ⟨rfl, rfl⟩

/-- Claim C6 as amended: load_model fails with the not-found error exactly
when the requested name is uncached and either absent from the path table or
recorded at a path that does not exist on the file system; and whenever any
load attempt fails, nothing is stored in the model cache, which is left
entirely unchanged, so the next call re-attempts the load from scratch. -/
theorem loadModel_notFound_characterization
    (ip : String → Nat → String → StateDict) (name : String) (st : AppState) :
    ((loadModel ip name st).1 = Except.error LoadErr.modelNotFound ↔
      st.loaded_models.lookup name = none ∧
        (st.model_paths.lookup name = none ∨
          ∃ p, st.model_paths.lookup name = some p ∧ st.fs.lookup p = none)) ∧
    (∀ e, (loadModel ip name st).1 = Except.error e →
      ((loadModel ip name st).2).loaded_models = st.loaded_models) := by
  cases hcache : st.loaded_models.lookup name with
  | some m =>
    rw [loadModel_eq_cached ip name st m hcache]
    exact ⟨by simp, fun e he => by simp at he⟩
  | none =>
    cases hpath : st.model_paths.lookup name with
    | none =>
      rw [loadModel_eq_noPath ip name st hcache hpath]
      exact ⟨by simp, fun e he => rfl⟩
    | some path =>
      rw [loadModel_eq_path ip name st path hcache hpath]
      cases hfs : st.fs.lookup path with
      | none =>
        rw [loadFromPath_eq_noFile ip name path st hfs]
        refine ⟨⟨fun _ => ⟨rfl, Or.inr ⟨path, rfl, hfs⟩⟩, fun _ => rfl⟩,
          fun e he => rfl⟩
      | some aopt =>
        cases aopt with
        | none =>
          rw [loadFromPath_eq_corrupt ip name path st hfs]
          refine ⟨⟨?_, ?_⟩, fun e he => rfl⟩
          · intro habs
            exact absurd (Except.error.inj habs) (by decide)
          · rintro ⟨-, hcase | ⟨p, hp, hfp⟩⟩
            · cases hcase
            · rw [← Option.some.inj hp] at hfp
              rw [hfs] at hfp
              cases hfp
        | some artifact =>
          rw [loadFromPath_eq_artifact ip name path st artifact hfs]
          cases hsd : toStateDict (normalizeCkpt artifact) with
          | none =>
            rw [loadArtifact_eq_bad ip name artifact st hsd]
            refine ⟨⟨?_, ?_⟩, fun e he => rfl⟩
            · intro habs
              exact absurd (Except.error.inj habs) (by decide)
            · rintro ⟨-, hcase | ⟨p, hp, hfp⟩⟩
              · cases hcase
              · rw [← Option.some.inj hp] at hfp
                rw [hfs] at hfp
                cases hfp
          | some sd =>
            rw [loadArtifact_eq_sd ip name artifact st sd hsd]
            refine ⟨⟨?_, ?_⟩, (finishLoad_error_facts ip name sd st).2⟩
            · intro habs
              exact absurd habs (finishLoad_error_facts ip name sd st).1
            · rintro ⟨-, hcase | ⟨p, hp, hfp⟩⟩
              · cases hcase
              · rw [← Option.some.inj hp] at hfp
                rw [hfs] at hfp
                cases hfp

/-- Claim C6 amended-claim witness: the failed attempt on stC6 leaves the
cache unchanged. -/
theorem loadModel_notFound_characterization_witness :
    ((loadModel ipW "BinaryCNN_Light" stC6).2).loaded_models =
      stC6.loaded_models :=
  (loadModel_notFound_characterization ipW "BinaryCNN_Light" stC6).2
    LoadErr.modelNotFound rfl

/-- Claim C7: once a name has been loaded successfully, it is cached, and
every subsequent call returns the identical cached instance with the process
state completely unchanged — a side-effect-free read that re-runs none of
the normalize, infer, build or bind pipeline. -/
theorem loadModel_idempotent (ip : String → Nat → String → StateDict)
    (name : String) (st : AppState) (m : Model) (st' : AppState)
    (h : loadModel ip name st = (Except.ok m, st')) :
    st'.loaded_models.lookup name = some m ∧
    loadModel ip name st' = (Except.ok m, st') := by
  have hlk : st'.loaded_models.lookup name = some m := by
    cases hcache : st.loaded_models.lookup name with
    | some m0 =>
      rw [loadModel_eq_cached ip name st m0 hcache, Prod.mk.injEq] at h
      obtain ⟨hm, hst⟩ := h
      rw [← hst, ← Except.ok.inj hm]
      exact hcache
    | none =>
      cases hpath : st.model_paths.lookup name with
      | none =>
        rw [loadModel_eq_noPath ip name st hcache hpath] at h
        simp at h
      | some path =>
        rw [loadModel_eq_path ip name st path hcache hpath] at h
        cases hfs : st.fs.lookup path with
        | none =>
          rw [loadFromPath_eq_noFile ip name path st hfs] at h
          simp at h
        | some aopt =>
          cases aopt with
          | none =>
            rw [loadFromPath_eq_corrupt ip name path st hfs] at h
            simp at h
          | some artifact =>
            rw [loadFromPath_eq_artifact ip name path st artifact hfs] at h
            cases hsd : toStateDict (normalizeCkpt artifact) with
            | none =>
              rw [loadArtifact_eq_bad ip name artifact st hsd] at h
              simp at h
            | some sd =>
              rw [loadArtifact_eq_sd ip name artifact st sd hsd] at h
              exact finishLoad_ok_cached ip name sd st m st' h
  exact ⟨hlk, loadModel_eq_cached ip name st' m hlk⟩

/-- A wrapped artifact with a conclusive classifier head, used for the
concrete witness runs. -/
def artW : PyObj :=
  PyObj.dict [("state_dict",
    PyObj.dict [("classifier.4.weight", PyObj.tensor ⟨[5, 128], 0⟩)])]

/-- The parameter map artW normalizes and converts to. -/
def sdWit : StateDict := [("classifier.4.weight", ⟨[5, 128], 0⟩)]

/-- A fresh state ready to load CustomCNN1 from artW. -/
def stW : AppState :=
  ⟨[], [("CustomCNN1", "models/CustomCNN1_best.pth")], [],
    [("models/CustomCNN1_best.pth", some artW)]⟩

/-- The model the witness load produces. -/
def mW : Model := ⟨"CustomCNN1", 5, "default", []⟩

/-- The state after the witness load. -/
def stW' : AppState :=
  ⟨[("CustomCNN1", mW)], [("CustomCNN1", "models/CustomCNN1_best.pth")],
    [("CustomCNN1", ⟨5, classNamesFor 5⟩)],
    [("models/CustomCNN1_best.pth", some artW)]⟩

/-- Claim C7 witness: after a concrete successful load, the model is cached
and a repeated call returns it unchanged. -/
theorem loadModel_idempotent_witness :
    stW'.loaded_models.lookup "CustomCNN1" = some mW ∧
    loadModel ipW "CustomCNN1" stW' = (Except.ok mW, stW') :=
  loadModel_idempotent ipW "CustomCNN1" stW mW stW' (by rfl)

/-- Claim C10: after a successful uncached load whose class-count detection
returned n, the stored configuration for the name has num_classes n and a
class_names list of exactly n entries, namely the fixed table classNamesFor
(the binary pair for 2, the five coffee-disease names for 5, generated names
otherwise), and the built model records n as its class count, so per-class
probability indexing over class_names stays within the model's output
width. -/
theorem loadModel_config_invariant (ip : String → Nat → String → StateDict)
    (name : String) (st : AppState) (path : String) (a : PyObj)
    (sd : StateDict) (n : Nat) (m : Model) (st' : AppState)
    (hmiss : st.loaded_models.lookup name = none)
    (hpath : st.model_paths.lookup name = some path)
    (hfs : st.fs.lookup path = some (some a))
    (hsd : toStateDict (normalizeCkpt a) = some sd)
    (hdet : detect_num_classes_from_checkpoint sd = some n)
    (hok : loadModel ip name st = (Except.ok m, st')) :
    st'.model_configs.lookup name = some ⟨n, classNamesFor n⟩ ∧
    (classNamesFor n).length = n ∧
    m.num_classes = n := by
  rw [loadModel_eq_path ip name st path hmiss hpath,
    loadFromPath_eq_artifact ip name path st a hfs,
    loadArtifact_eq_sd ip name a st sd hsd] at hok
  unfold finishLoad at hok
  rw [hdet] at hok
  have hok2 : buildModel ip name n (selectVariant name n sd) sd
      { st with model_configs :=
          setAssoc st.model_configs name ⟨n, classNamesFor n⟩ } =
      (Except.ok m, st') := hok
  unfold buildModel at hok2
  by_cases hk : name ∈ knownArchNames
  · rw [if_pos hk, Prod.mk.injEq] at hok2
    obtain ⟨hm, hst⟩ := hok2
    refine ⟨?_, classNamesFor_length n, ?_⟩
    · rw [← hst]
      exact lookup_setAssoc_self _ _ _
    · rw [← Except.ok.inj hm]
  · rw [if_neg hk] at hok2
    simp at hok2

/-- Claim C10 witness at the concrete load of stW. -/
theorem loadModel_config_invariant_witness :
    stW'.model_configs.lookup "CustomCNN1" = some ⟨5, classNamesFor 5⟩ ∧
    (classNamesFor 5).length = 5 ∧
    mW.num_classes = 5 :=
  loadModel_config_invariant ipW "CustomCNN1" stW "models/CustomCNN1_best.pth"
    artW sdWit 5 mW stW' rfl rfl rfl rfl rfl (by rfl)

/-! ### Discovery Scanner
Embedding of scan_for_models (src/backend/app.py lines 73-142). -/

/-- Fueled core of Python str.replace: replace every non-overlapping
occurrence of pat left to right, emitting rep.  Each step consumes at least
one character, so fuel equal to the string length is exact.  An empty
pattern is returned unchanged (Python would interleave rep; the scan only
replaces the non-empty tokens _best, _checkpoint, cnn and the underscore). -/
def replaceAllFuel (pat rep : List Char) : Nat → List Char → List Char
  | _, [] => []
  | 0, s => s
  | fuel + 1, c :: rest =>
    if !pat.isEmpty && pat.isPrefixOf (c :: rest) then
      rep ++ replaceAllFuel pat rep fuel ((c :: rest).drop pat.length)
    else c :: replaceAllFuel pat rep fuel rest

/-- Python str.replace on strings. -/
def strReplace (s pat rep : String) : String :=
  ⟨replaceAllFuel pat.data rep.data s.data.length s.data⟩

/-- Stem of a file name: Path.stem drops the final extension, and the scan
only sees names produced by the glob for .pth files, so the stem is the name
with the four final characters removed. -/
def stemOf (fname : String) : String :=
  if ".pth".data.isSuffixOf fname.data then
    ⟨fname.data.take (fname.data.length - 4)⟩
  else fname

/-- The candidate-name derivation of scan_for_models (app.py line 106): the
stem with the suffix tokens _best and _checkpoint removed by global
replaces. -/
def derivedModelName (fname : String) : String :=
  strReplace (strReplace (stemOf fname) "_best" "") "_checkpoint" ""

/-- Lower-cased string, the Python s.lower(). -/
def lowerS (s : String) : String := ⟨s.data.map Char.toLower⟩

/-- The fuzzy match of scan_for_models (lines 112-115): case-insensitive
containment in either direction, or containment of the config name with cnn
and underscores removed in the derived name with underscores removed. -/
def nameMatches (config_name mname : String) : Bool :=
  containsSub (lowerS config_name).data (lowerS mname).data
    || containsSub (lowerS mname).data (lowerS config_name).data
    || containsSub
        (strReplace (strReplace (lowerS config_name) "cnn" "") "_" "").data
        (strReplace (lowerS mname) "_" "").data

/-- The registered symbolic names: the keys of MODEL_CONFIGS (app.py lines
41-53), in insertion order. -/
def MODEL_CONFIG_NAMES : List String :=
  ["ShuffleNet", "MobileNetV3", "EfficientNet", "CustomCNN1", "CustomCNN2",
    "CustomCNN3", "BinaryCNN_Light", "BinaryCNN_Deep", "BinaryCNN_Efficient"]

/-- One iteration of the discovery loop of scan_for_models (lines 105-129):
the file binds the first registered name that matches its derived name and
is not already bound (the loop breaks only inside the unbound check, so a
matching but already-bound name lets the scan move to the next registered
name); an unmatched file leaves the table unchanged, reported but never
fatal.  The bound path, str of the resolved file, is modeled by the file
name itself. -/
def bindFile (mp : List (String × String)) (fname : String) :
    List (String × String) :=
  match MODEL_CONFIG_NAMES.find? (fun c =>
      nameMatches c (derivedModelName fname) && (mp.lookup c).isNone) with
  | some c => mp ++ [(c, fname)]
  | none => mp

/-- The whole scan over a directory listing: fold bindFile over the files
in listing order, starting from the empty table (lines 77 and 105). -/
def scan_for_models (files : List String) : List (String × String) :=
  files.foldl bindFile []

theorem lookup_append_of_some {α : Type} {l l2 : List (String × α)}
    {n : String} {p : α} (h : l.lookup n = some p) :
    (l ++ l2).lookup n = some p := by
  induction l with
  | nil => cases h
  | cons q t ih =>
    obtain ⟨a, b⟩ := q
    cases hk : n == a
    · simp only [List.lookup, hk] at h
      simp only [List.cons_append, List.lookup, hk]
      exact ih h
    · simp only [List.lookup, hk] at h
      simp only [List.cons_append, List.lookup, hk]
      exact h

theorem not_mem_keys_of_lookup_none {α : Type} {l : List (String × α)}
    {k : String} (h : l.lookup k = none) : k ∉ l.map Prod.fst := by
  induction l with
  | nil => simp
  | cons q t ih =>
    obtain ⟨a, b⟩ := q
    cases hk : k == a
    · simp only [List.lookup, hk] at h
      simp only [List.map_cons, List.mem_cons]
      push_neg
      refine ⟨?_, ih h⟩
      intro he
      rw [he, beq_self_eq_true] at hk
      cases hk
    · simp only [List.lookup, hk] at h
      cases h

/-- Claim C9: throughout a discovery scan each symbolic name is bound to at
most one path: an existing binding is never rebound by any later file; a
table with distinct names keeps distinct names; a file matching no
registered name leaves the table unchanged without failing; the file
BinaryCNN_Light_best.pth, whose stem loses the trailing _best token, binds
BinaryCNN_Light in a fresh table; and unknown_model_v3.pth binds nothing in
any table. -/
theorem scan_binding_invariants :
    (∀ mp fname n p, mp.lookup n = some p →
      (bindFile mp fname).lookup n = some p) ∧
    (∀ mp fname, (mp.map Prod.fst).Nodup →
      ((bindFile mp fname).map Prod.fst).Nodup) ∧
    (∀ mp fname, (∀ c ∈ MODEL_CONFIG_NAMES,
        nameMatches c (derivedModelName fname) = false) →
      bindFile mp fname = mp) ∧
    (bindFile [] "BinaryCNN_Light_best.pth" =
      [("BinaryCNN_Light", "BinaryCNN_Light_best.pth")]) ∧
    (∀ mp, bindFile mp "unknown_model_v3.pth" = mp) := by
  refine ⟨?_, ?_, ?_, ?_, ?_⟩
  · intro mp fname n p h
    unfold bindFile
    cases hf : MODEL_CONFIG_NAMES.find? (fun c =>
        nameMatches c (derivedModelName fname) && (mp.lookup c).isNone) with
    | none => exact h
    | some c => exact lookup_append_of_some h
  · intro mp fname hnd
    unfold bindFile
    cases hf : MODEL_CONFIG_NAMES.find? (fun c =>
        nameMatches c (derivedModelName fname) && (mp.lookup c).isNone) with
    | none => exact hnd
    | some c =>
      have hpred := List.find?_some hf
      rw [Bool.and_eq_true] at hpred
      have hcnone : mp.lookup c = none :=
        Option.isNone_iff_eq_none.mp hpred.2
      have hcnot : c ∉ mp.map Prod.fst := not_mem_keys_of_lookup_none hcnone
      rw [List.map_append]
      rw [List.nodup_append]
      refine ⟨hnd, by simp, ?_⟩
      intro x hx
      simp only [List.map_cons, List.map_nil, List.mem_singleton]
      intro hxc
      rw [hxc] at hx
      exact hcnot hx
  · intro mp fname hnone
    unfold bindFile
    have hf : (MODEL_CONFIG_NAMES.find? (fun c =>
        nameMatches c (derivedModelName fname) && (mp.lookup c).isNone)) = none := by
      rw [List.find?_eq_none]
      intro c hc
      simp [hnone c hc]
    rw [hf]
  · decide
  · intro mp
    unfold bindFile
    have hall : ∀ x ∈ MODEL_CONFIG_NAMES,
        nameMatches x (derivedModelName "unknown_model_v3.pth") = false := by
      decide
    have hf : (MODEL_CONFIG_NAMES.find? (fun c =>
        nameMatches c (derivedModelName "unknown_model_v3.pth")
          && (mp.lookup c).isNone)) = none := by
      rw [List.find?_eq_none]
      intro c hc
      simp [hall c hc]
    rw [hf]

/-- Claim C9 witness: a name already bound keeps its path when a later file
for the same family is processed. -/
theorem scan_binding_invariants_witness :
    (bindFile [("BinaryCNN_Light", "models/a.pth")]
        "BinaryCNN_Light_checkpoint.pth").lookup "BinaryCNN_Light" =
      some "models/a.pth" :=
  scan_binding_invariants.1 [("BinaryCNN_Light", "models/a.pth")]
    "BinaryCNN_Light_checkpoint.pth" "BinaryCNN_Light" "models/a.pth" rfl
